import Mathlib

/-!
Shallow embedding of the rate-limiting core of the IP2Country service
(package `limiter`): the token-bucket primitive, the in-memory per-key
limiter with its periodic cleanup sweep, the Redis-backed distributed
limiter, and the factory that selects between them.

Conventions of the embedding:
  * Go `float64` quantities (tokens, rates, capacities, elapsed seconds)
    are modelled as `ℚ`.
  * `time.Time` values are modelled as `ℚ` seconds since the epoch; the
    ambient call time `now` is passed explicitly to each function that
    calls `time.Now()` in the source.
  * `time.Duration` is an `ℕ` count of nanoseconds, exactly as in Go
    (an `int64` nanosecond count); the conversion
    `time.Duration(float64 expression)` truncates toward zero and
    `Duration.Seconds()` divides by 10^9.
  * Go's in-place mutation becomes explicit state passing: methods that
    mutate a `TokenBucket` or a `MemoryLimiter` return the updated value.
  * The Redis backend is modelled by an explicit store state
    (`RedisStore`) for the atomic Lua script, and by an abstract
    `Except`-valued reply for the error paths of `RedisLimiter.Allow`.
-/

/-- Mirrors the helper `min(a, b float64) float64` defined in the limiter
package: `if a < b { return a }; return b`. -/
def minF (a b : ℚ) : ℚ := if a < b then a else b

/-- Mirrors the helper `max(a, b float64) float64` defined in the limiter
package: `if a > b { return a }; return b`. -/
def maxF (a b : ℚ) : ℚ := if a > b then a else b

/-- `TokenBucket` from the limiter package: per-client token reservoir.
The `sync.Mutex` field protects the struct in Go and has no functional
content, so it is omitted. -/
structure TokenBucket where
  tokens : ℚ
  capacity : ℚ
  refillRate : ℚ
  lastRefillTime : ℚ
  deriving DecidableEq

/-- `NewTokenBucket(rate, capacity float64)`: starts with
`initialTokens = capacity` raised to 1 when below 1, and stores
`capacity = max(capacity, 1.0)`. `now` stands for the `time.Now()`
call in the constructor. -/
def NewTokenBucket (rate capacity now : ℚ) : TokenBucket :=
  let initialTokens := if capacity < 1 then 1 else capacity
  { tokens := initialTokens
    capacity := maxF capacity 1
    refillRate := rate
    lastRefillTime := now }

/-- `(tb *TokenBucket) refill()`: `elapsed = now - lastRefillTime`;
`tokens = min(tokens + elapsed*refillRate, capacity)`;
`lastRefillTime = now`. -/
def TokenBucket.refill (tb : TokenBucket) (now : ℚ) : TokenBucket :=
  let elapsed := now - tb.lastRefillTime
  let tokensToAdd := elapsed * tb.refillRate
  { tb with
    tokens := minF (tb.tokens + tokensToAdd) tb.capacity
    lastRefillTime := now }

/-- `(tb *TokenBucket) Allow() bool`: refill, then consume one token when
`tokens >= 1.0`. Returns the decision together with the updated bucket. -/
def TokenBucket.Allow (tb : TokenBucket) (now : ℚ) : Bool × TokenBucket :=
  let tb := tb.refill now
  if 1 ≤ tb.tokens then
    (true, { tb with tokens := tb.tokens - 1 })
  else
    (false, tb)

/-- Invariant of the token bucket stated in the data model:
`0 ≤ tokens ≤ capacity` and `capacity ≥ 1`. -/
def TokenBucket.Inv (tb : TokenBucket) : Prop :=
  0 ≤ tb.tokens ∧ tb.tokens ≤ tb.capacity ∧ 1 ≤ tb.capacity

/-- `MemoryLimiter` from the limiter package. The `sync.Map` registry is
modelled as a function from client key to an optional bucket; the two
mutexes have no functional content and are omitted. -/
structure MemoryLimiter where
  buckets : String → Option TokenBucket
  rate : ℚ
  capacity : ℚ
  lastCleanup : ℚ

/-- `NewMemoryLimiter(requestsPerSecond float64)`: empty registry,
`rate = capacity = requestsPerSecond`, `lastCleanup = time.Now()`. -/
def NewMemoryLimiter (requestsPerSecond now : ℚ) : MemoryLimiter :=
  { buckets := fun _ => none
    rate := requestsPerSecond
    capacity := requestsPerSecond
    lastCleanup := now }

/-- `(rl *MemoryLimiter) getBucket(ip string)`: load the existing bucket,
or create `NewTokenBucket(rl.rate, rl.capacity)` for an unseen key. -/
def MemoryLimiter.getBucket (rl : MemoryLimiter) (ip : String) (now : ℚ) :
    TokenBucket :=
  match rl.buckets ip with
  | some b => b
  | none => NewTokenBucket rl.rate rl.capacity now

/-- `(rl *MemoryLimiter) maybeCleanup()`: return unchanged when less than
5 minutes (300 s) elapsed since `lastCleanup`; otherwise remove every
bucket whose `lastRefillTime` is before `now - 5 minutes` and set
`lastCleanup = now`. -/
def MemoryLimiter.maybeCleanup (rl : MemoryLimiter) (now : ℚ) :
    MemoryLimiter :=
  if now - rl.lastCleanup < 300 then
    rl
  else
    let threshold := now - 300
    { rl with
      buckets := fun k =>
        match rl.buckets k with
        | some b => if b.lastRefillTime < threshold then none else some b
        | none => none
      lastCleanup := now }

/-- `(rl *MemoryLimiter) Allow(ip string) bool`: get or create the bucket
for `ip`, delegate to `TokenBucket.Allow` (the updated bucket is written
back to the registry, matching Go's in-place pointer mutation after
`LoadOrStore`), then run `maybeCleanup`. -/
def MemoryLimiter.Allow (rl : MemoryLimiter) (ip : String) (now : ℚ) :
    Bool × MemoryLimiter :=
  let bucket := rl.getBucket ip now
  let res := bucket.Allow now
  let rl' : MemoryLimiter :=
    { rl with buckets := fun k => if k = ip then some res.2 else rl.buckets k }
  (res.1, rl'.maybeCleanup now)

/-- `RedisLimiter` from the limiter package. The `redis.Client` and
`context.Context` fields are external handles with no functional content
and are omitted; `windowSize time.Duration` is kept as its `int64`
nanosecond count (here `ℕ`, since a constructed window is positive). -/
structure RedisLimiter where
  requestsPerSec : ℚ
  windowSizeNs : ℕ
  deriving DecidableEq

/-- Core of `NewRedisLimiter`: the window-size computation
`windowSize := time.Second; if requestsPerSecond < 1.0 { windowSize =
time.Duration(float64(time.Second) / requestsPerSecond) }`. The
`time.Duration(...)` conversion truncates the nanosecond count toward
zero, hence the floor. -/
def NewRedisLimiter (requestsPerSecond : ℚ) : RedisLimiter :=
  { requestsPerSec := requestsPerSecond
    windowSizeNs :=
      if requestsPerSecond < 1 then
        (⌊(10 ^ 9 : ℚ) / requestsPerSecond⌋).toNat
      else
        10 ^ 9 }

/-- `NewRedisLimiter(addr, password string, db int, requestsPerSecond
float64)`: pings the backend and fails construction when it is
unreachable; `pingOk` stands for the outcome of `client.Ping(ctx)`. -/
def NewRedisLimiterE (addr password : String) (db : ℤ)
    (requestsPerSecond : ℚ) (pingOk : Bool) : Except String RedisLimiter :=
  if pingOk then
    .ok (NewRedisLimiter requestsPerSecond)
  else
    .error "failed to connect to Redis for rate limiting"

/-- `rl.windowSize.Seconds()` as the exact rational `ns / 10^9`. -/
def RedisLimiter.windowSecondsQ (rl : RedisLimiter) : ℚ :=
  (rl.windowSizeNs : ℚ) / 10 ^ 9

/-- `windowSeconds := int64(rl.windowSize.Seconds())` in
`RedisLimiter.Allow`: the seconds value truncated to a whole number. -/
def RedisLimiter.windowSecondsI (rl : RedisLimiter) : ℕ :=
  rl.windowSizeNs / 10 ^ 9

/-- `window := now.Unix() / windowSeconds` in `RedisLimiter.Allow`
(integer division of whole epoch seconds; call times are nonnegative,
so `ℕ` division matches Go's truncating `int64` division). -/
def RedisLimiter.window (rl : RedisLimiter) (t : ℕ) : ℕ :=
  t / rl.windowSecondsI

/-- `key := fmt.Sprintf("ratelimit:%s:%d", ip, window)`. -/
def RedisLimiter.key (rl : RedisLimiter) (ip : String) (t : ℕ) : String :=
  "ratelimit:" ++ ip ++ ":" ++ toString (rl.window t)

/-- The TTL argument `int(rl.windowSize.Seconds())*2` passed to the Lua
script (`ARGV[2]`), in whole seconds. -/
def RedisLimiter.ttlArg (rl : RedisLimiter) : ℕ :=
  rl.windowSizeNs / 10 ^ 9 * 2

/-- `limit := int64(math.Ceil(rl.requestsPerSec *
rl.windowSize.Seconds()))` in `RedisLimiter.Allow`. -/
def RedisLimiter.limit (rl : RedisLimiter) : ℤ :=
  ⌈rl.requestsPerSec * rl.windowSecondsQ⌉

/-- State of the shared Redis backend visible to the rate-limiting Lua
script: the integer counter per key, and the expiry (TTL in seconds)
per key when one has been set. -/
structure RedisStore where
  counts : String → ℕ
  ttls : String → Option ℕ

/-- The Lua script executed by `RedisLimiter.Allow`, atomically:
`current = INCR(key)`; `if current == 1 then EXPIRE(key, ttl) end`;
`return current`. Returns the post-increment count with the updated
store. -/
def luaRateScript (s : RedisStore) (key : String) (ttl : ℕ) :
    ℕ × RedisStore :=
  let current := s.counts key + 1
  let counts' := fun k => if k = key then current else s.counts k
  let ttls' :=
    if current = 1 then
      fun k => if k = key then some ttl else s.ttls k
    else
      s.ttls
  (current, { counts := counts', ttls := ttls' })

/-- Replies the Go code can see from `client.Eval(...).Result()`: an
`int64` count, or a value of any other type (the failed type
assertion `result.(int64)`). -/
inductive EvalReply where
  | intReply : ℤ → EvalReply
  | otherReply : EvalReply
  deriving DecidableEq

/-- The decision logic of `RedisLimiter.Allow` downstream of the Eval
call: a backend error fails open (`return true`), a reply that is not an
`int64` fails open, and an integer count `n` is admitted iff
`n <= limit`. -/
def RedisLimiter.allowOfResult (rl : RedisLimiter)
    (result : Except String EvalReply) : Bool :=
  match result with
  | .error _ => true
  | .ok .otherReply => true
  | .ok (.intReply n) => n ≤ rl.limit

/-- `(rl *RedisLimiter) Allow(ip string) bool` on the happy path: build
the window key from `ip` and the current time `t` (whole epoch seconds),
run the Lua script atomically against the store, and decide from the
post-increment count. -/
def RedisLimiter.AllowFull (rl : RedisLimiter) (ip : String) (t : ℕ)
    (s : RedisStore) : Bool × RedisStore :=
  let key := rl.key ip t
  let res := luaRateScript s key rl.ttlArg
  (rl.allowOfResult (.ok (.intReply (res.1 : ℤ))), res.2)

/-- `LimiterConfig` from the limiter package (field `Type` renamed
`type`, a reserved word in Lean). -/
structure LimiterConfig where
  type : String
  RequestsPerSecond : ℚ
  RedisAddr : String
  RedisPassword : String
  RedisDB : ℤ

/-- Result of the factory: either of the two limiter implementations. -/
inductive LimiterValue where
  | mem : MemoryLimiter → LimiterValue
  | red : RedisLimiter → LimiterValue

/-- Mirrors `strings.ToLower` as used by `NewLimiter` (the configured
kinds are ASCII, where Go and Lean lower-casing agree); written on the
character list so it is kernel-executable. -/
def goToLower (s : String) : String := ⟨s.data.map Char.toLower⟩

/-- Mirrors `strings.TrimSpace` as used by `NewLimiter`: drop whitespace
from both ends; written on the character list so it is
kernel-executable. -/
def goTrimSpace (s : String) : String :=
  ⟨((s.data.dropWhile Char.isWhitespace).reverse.dropWhile
      Char.isWhitespace).reverse⟩

/-- `NewLimiter(cfg LimiterConfig) (Limiter, error)`: lower-case and trim
the configured type; `"memory"` and `""` yield the in-memory limiter,
`"redis"` the Redis limiter (wrapping a construction failure), and any
other value a configuration error. -/
def NewLimiter (cfg : LimiterConfig) (pingOk : Bool) (now : ℚ) :
    Except String LimiterValue :=
  let limiterType := goToLower (goTrimSpace cfg.type)
  if limiterType = "memory" ∨ limiterType = "" then
    .ok (.mem (NewMemoryLimiter cfg.RequestsPerSecond now))
  else if limiterType = "redis" then
    match NewRedisLimiterE cfg.RedisAddr cfg.RedisPassword cfg.RedisDB
        cfg.RequestsPerSecond pingOk with
    | .ok rl => .ok (.red rl)
    | .error e => .error ("failed to create Redis limiter: " ++ e)
  else
    .error ("unknown rate limiter type: " ++ cfg.type)

/-- Idle bucket for client key B: empty, capacity 1, rate 1/1000 tokens
per second, last refilled at time 0. -/
def bucketBIdle : TokenBucket := ⟨0, 1, 1 / 1000, 0⟩

/-- A memory limiter whose registry holds only `bucketBIdle` under key
"B", with rate 1/1000 and last cleanup at time 0. -/
def mlTwoKeys : MemoryLimiter :=
  { buckets := fun k => if k = "B" then some bucketBIdle else none
    rate := 1 / 1000
    capacity := 1 / 1000
    lastCleanup := 0 }

theorem minF_eq (a b : ℚ) : minF a b = min a b := by
  unfold minF
  rcases lt_trichotomy a b with h | h | h
  · rw [if_pos h, min_eq_left h.le]
  · subst h; simp
  · rw [if_neg (not_lt.mpr h.le), min_eq_right h.le]

theorem maxF_eq (a b : ℚ) : maxF a b = max a b := by
  unfold maxF
  rcases lt_trichotomy a b with h | h | h
  · rw [if_neg (not_lt.mpr h.le), max_eq_right h.le]
  · subst h; simp
  · rw [if_pos h, max_eq_left h.le]

theorem ite_lt_one_eq_max (c : ℚ) : (if c < 1 then (1:ℚ) else c) = max c 1 := by
  split_ifs with h
  · rw [max_eq_right h.le]
  · rw [max_eq_left (not_lt.mp h)]

/-- C1: for every TokenBucket state (tokens `t`, capacity `c`, refill rate
`r`, last refill time `l`) and every call at time `now ≥ l`, `Allow` first
refills — the token count before consumption becomes
`min(t + (now - l)*r, c)` and `lastRefillTime` becomes `now` — and then,
if that refilled count is at least 1, subtracts exactly 1 and admits,
otherwise subtracts nothing and rejects. -/
theorem tokenBucket_allow_refill_then_consume
    (t c r l now : ℚ) (h : l ≤ now) :
    ((TokenBucket.Allow ⟨t, c, r, l⟩ now).2.lastRefillTime = now)
    ∧ (1 ≤ min (t + (now - l) * r) c →
        (TokenBucket.Allow ⟨t, c, r, l⟩ now).1 = true
        ∧ (TokenBucket.Allow ⟨t, c, r, l⟩ now).2.tokens
            = min (t + (now - l) * r) c - 1)
    ∧ (min (t + (now - l) * r) c < 1 →
        (TokenBucket.Allow ⟨t, c, r, l⟩ now).1 = false
        ∧ (TokenBucket.Allow ⟨t, c, r, l⟩ now).2.tokens
            = min (t + (now - l) * r) c) := by
  unfold TokenBucket.Allow TokenBucket.refill
  simp only [minF_eq]
  split_ifs with h1 <;>
    simp_all [le_of_lt, not_le.mp]

/-- Witness for C1 at the concrete bucket (2, 5, 1, 0) polled at time 3:
the refilled count is min(2 + 3, 5) = 5, so the call admits and leaves
4 tokens. -/
theorem tokenBucket_allow_refill_then_consume_witness :
    (TokenBucket.Allow ⟨2, 5, 1, 0⟩ 3).1 = true
    ∧ (TokenBucket.Allow ⟨2, 5, 1, 0⟩ 3).2.tokens = 4 := by
  have h := tokenBucket_allow_refill_then_consume 2 5 1 0 3 (by norm_num)
  have h2 := h.2.1 (by norm_num)
  refine ⟨h2.1, ?_⟩
  rw [h2.2]; norm_num

/-- C6: `NewTokenBucket(rate, capacity)` stores capacity clamped to
`max(capacity, 1)` and initial tokens `max(capacity, 1)` (so a brand-new
bucket satisfies the invariant and its first consumption succeeds), and
every `Allow` call — refill clamped at capacity, then consuming 1 only
when at least 1 token is present — preserves the invariant
`0 ≤ tokens ≤ capacity ∧ 1 ≤ capacity`, given that time moves forward
and the refill rate is nonnegative. -/
theorem tokenBucket_invariant (rate capacity now : ℚ) :
    (NewTokenBucket rate capacity now).capacity = max capacity 1
    ∧ (NewTokenBucket rate capacity now).tokens = max capacity 1
    ∧ (NewTokenBucket rate capacity now).Inv
    ∧ ∀ (tb : TokenBucket) (t2 : ℚ), tb.Inv → 0 ≤ tb.refillRate →
        tb.lastRefillTime ≤ t2 → ((tb.Allow t2).2).Inv := by
  refine ⟨?_, ?_, ?_, ?_⟩
  · simp [NewTokenBucket, maxF_eq, max_comm]
  · simp [NewTokenBucket, ite_lt_one_eq_max]
  · have h1 : (1:ℚ) ≤ max capacity 1 := le_max_right _ _
    refine ⟨?_, ?_, ?_⟩ <;>
      simp only [NewTokenBucket, TokenBucket.Inv, ite_lt_one_eq_max, maxF_eq, max_comm] <;>
      linarith
  · rintro tb t2 ⟨h0, hc, h1⟩ hr hl
    unfold TokenBucket.Allow TokenBucket.refill TokenBucket.Inv
    simp only [minF_eq]
    have hadd : 0 ≤ tb.tokens + (t2 - tb.lastRefillTime) * tb.refillRate := by
      have : 0 ≤ (t2 - tb.lastRefillTime) * tb.refillRate :=
        mul_nonneg (by linarith) hr
      linarith
    have hmin0 : 0 ≤ min (tb.tokens + (t2 - tb.lastRefillTime) * tb.refillRate) tb.capacity :=
      le_min hadd (by linarith)
    have hminc : min (tb.tokens + (t2 - tb.lastRefillTime) * tb.refillRate) tb.capacity ≤ tb.capacity :=
      min_le_right _ _
    split_ifs with hge <;> dsimp only <;> refine ⟨?_, ?_, ?_⟩ <;> linarith

/-- Witness for C6 invariant preservation at the concrete bucket
(1, 2, 1, 0) polled at time 1. -/
theorem tokenBucket_invariant_witness :
    ((TokenBucket.Allow ⟨1, 2, 1, 0⟩ 1).2).Inv := by
  have h := (tokenBucket_invariant 1 2 0).2.2.2 ⟨1, 2, 1, 0⟩ 1
  exact h ⟨by norm_num, by norm_num, by norm_num⟩ (by norm_num) (by norm_num)

/-- C10: the local limiter built by `NewMemoryLimiter(r)` keeps no
independent capacity parameter — its stored capacity equals the rate
`r` itself — and the bucket created for any key is
`NewTokenBucket(r, r)`, whose burst capacity is `r` clamped to
`max(r, 1)` and whose refill rate is `r` (one second worth of the
configured requests-per-second). -/
theorem memoryLimiter_bucket_params (r now : ℚ) (ip : String) :
    (NewMemoryLimiter r now).rate = r
    ∧ (NewMemoryLimiter r now).capacity = r
    ∧ ((NewMemoryLimiter r now).getBucket ip now) = NewTokenBucket r r now
    ∧ ((NewMemoryLimiter r now).getBucket ip now).capacity = max r 1
    ∧ ((NewMemoryLimiter r now).getBucket ip now).refillRate = r := by
  refine ⟨rfl, rfl, rfl, ?_, rfl⟩
  simp [MemoryLimiter.getBucket, NewMemoryLimiter, NewTokenBucket, maxF_eq, max_comm]

/-- C2: for every limiter state, if the backend call during an admission
check returns an error, or returns a reply that is not an integer count,
then the decision is `true` (the request is admitted, never rejected);
the decision function is total, so no error value escapes. -/
theorem redis_allow_fail_open (rl : RedisLimiter) :
    (∀ e : String, rl.allowOfResult (.error e) = true)
    ∧ rl.allowOfResult (.ok .otherReply) = true :=
  ⟨fun _ => rfl, rfl⟩

theorem newRedis_fifth_ns : (NewRedisLimiter (1 / 5)).windowSizeNs = 5000000000 := by
  norm_num [NewRedisLimiter]; simp

theorem newRedis_threeTenths_ns :
    (NewRedisLimiter (3 / 10)).windowSizeNs = 3333333333 := by
  norm_num [NewRedisLimiter]; simp

/-- C3: when the atomic backend operation returns an integer
post-increment count `n`, the admission decision is `true` exactly when
`n ≤ ceil(configuredRate * windowSize)`; in particular a limiter built
for rate 0.2 has a 5-second window and limit 1 (one admission per
window). -/
theorem redis_allow_count_le_limit (rl : RedisLimiter) (n : ℤ) :
    (rl.allowOfResult (.ok (.intReply n)) = true
      ↔ n ≤ ⌈rl.requestsPerSec * ((rl.windowSizeNs : ℚ) / 10 ^ 9)⌉)
    ∧ (NewRedisLimiter (1 / 5)).windowSecondsQ = 5
    ∧ (NewRedisLimiter (1 / 5)).limit = 1 := by
  refine ⟨?_, ?_, ?_⟩
  · simp [RedisLimiter.allowOfResult, RedisLimiter.limit, RedisLimiter.windowSecondsQ]
  · unfold RedisLimiter.windowSecondsQ
    rw [newRedis_fifth_ns]; norm_num
  · unfold RedisLimiter.limit RedisLimiter.windowSecondsQ
    rw [newRedis_fifth_ns]
    norm_num [NewRedisLimiter]

/-- C4 counterexample: for the configured rate 3/10 (which is positive
and below 1) the constructed window size is NOT equal to `1/rate`
seconds: the source truncates `float64(time.Second)/rate` to a whole
`int64` nanosecond count, giving 3333333333 ns rather than the exact
10/3 seconds the claim asserts. -/
theorem redis_window_size_counterexample :
    (0 : ℚ) < 3 / 10 ∧ (3 / 10 : ℚ) < 1
    ∧ (NewRedisLimiter (3 / 10)).windowSecondsQ ≠ 1 / (3 / 10) := by
  refine ⟨by norm_num, by norm_num, ?_⟩
  unfold RedisLimiter.windowSecondsQ
  rw [newRedis_threeTenths_ns]; norm_num

theorem newRedis_windowSizeNs_pos (r : ℚ) (h : 0 < r) :
    0 < (NewRedisLimiter r).windowSizeNs := by
  unfold NewRedisLimiter
  dsimp only
  split_ifs with h1
  · have hx : (1:ℚ) ≤ (10 ^ 9 : ℚ) / r := by
      rw [le_div_iff h]
      nlinarith
    have h2 : (1:ℤ) ≤ ⌊(10 ^ 9 : ℚ) / r⌋ := by
      exact Int.le_floor.mpr (by exact_mod_cast hx)
    omega
  · norm_num

/-- C4 amended: for every rate `r > 0` the constructed window size is
1 second (10^9 ns) when `r ≥ 1`, and the truncation of `1/r` seconds to
whole nanoseconds (`⌊10^9 / r⌋` ns) when `r < 1` — at most `1/r`, within
one nanosecond of it, and exactly `1/r` whenever `10^9/r` is an
integer — and in all cases the per-window limit is at least 1, so at
least one admission is possible within a window. -/
theorem redis_window_size_amended (r : ℚ) (h : 0 < r) :
    (1 ≤ r → (NewRedisLimiter r).windowSizeNs = 10 ^ 9)
    ∧ (r < 1 → (NewRedisLimiter r).windowSizeNs = (⌊(10 ^ 9 : ℚ) / r⌋).toNat
        ∧ (NewRedisLimiter r).windowSecondsQ ≤ 1 / r
        ∧ 1 / r - (NewRedisLimiter r).windowSecondsQ < 1 / 10 ^ 9)
    ∧ 1 ≤ (NewRedisLimiter r).limit := by
  have hq : (0:ℚ) < 10 ^ 9 := by norm_num
  have hr0 : r ≠ 0 := ne_of_gt h
  have hXr : (1:ℚ) / r = (10 ^ 9 : ℚ) / r / 10 ^ 9 := by
    field_simp
  refine ⟨?_, ?_, ?_⟩
  · intro h1
    simp [NewRedisLimiter, not_lt.mpr h1]
  · intro h1
    have hx : (0:ℚ) < (10 ^ 9 : ℚ) / r := div_pos hq h
    have hfl : (0:ℤ) ≤ ⌊(10 ^ 9 : ℚ) / r⌋ := Int.floor_nonneg.mpr hx.le
    have hcast : (((⌊(10 ^ 9 : ℚ) / r⌋).toNat : ℚ)) = ((⌊(10 ^ 9 : ℚ) / r⌋ : ℤ) : ℚ) := by
      exact_mod_cast congrArg (fun z => ((z : ℤ) : ℚ)) (Int.toNat_of_nonneg hfl)
    have hwq : (NewRedisLimiter r).windowSecondsQ
        = ((⌊(10 ^ 9 : ℚ) / r⌋ : ℤ) : ℚ) / 10 ^ 9 := by
      unfold RedisLimiter.windowSecondsQ NewRedisLimiter
      dsimp only
      rw [if_pos h1, hcast]
    refine ⟨by simp [NewRedisLimiter, h1], ?_, ?_⟩
    · rw [hwq, hXr]
      exact (div_le_div_right hq).mpr (Int.floor_le _)
    · rw [hwq, hXr, div_sub_div_same]
      have h2 : (10 ^ 9 : ℚ) / r - (⌊(10 ^ 9 : ℚ) / r⌋ : ℚ) < 1 := by
        linarith [Int.lt_floor_add_one ((10 ^ 9 : ℚ) / r)]
      exact (div_lt_div_right hq).mpr h2
  · have hns : 0 < (NewRedisLimiter r).windowSizeNs := newRedis_windowSizeNs_pos r h
    have hwq : 0 < (NewRedisLimiter r).windowSecondsQ := by
      unfold RedisLimiter.windowSecondsQ
      have : (0:ℚ) < ((NewRedisLimiter r).windowSizeNs : ℚ) := by
        exact_mod_cast hns
      positivity
    have hpos : 0 < (NewRedisLimiter r).requestsPerSec * (NewRedisLimiter r).windowSecondsQ := by
      have hrp : (NewRedisLimiter r).requestsPerSec = r := rfl
      rw [hrp]
      exact mul_pos h hwq
    unfold RedisLimiter.limit
    exact Int.ceil_pos.mpr hpos

/-- Witness for C4 amended at rate 1/5: the window is the truncation of
5 seconds (which is exact here), bounded by `1/rate`, and the window
limit is at least 1. -/
theorem redis_window_size_amended_witness :
    (NewRedisLimiter (1 / 5)).windowSizeNs = (⌊(10 ^ 9 : ℚ) / (1 / 5)⌋).toNat
    ∧ (NewRedisLimiter (1 / 5)).windowSecondsQ ≤ 1 / (1 / 5)
    ∧ 1 ≤ (NewRedisLimiter (1 / 5)).limit := by
  have h := redis_window_size_amended (1 / 5) (by norm_num)
  have h2 := h.2.1 (by norm_num)
  exact ⟨h2.1, h2.2.1, h.2.2⟩

theorem newRedis_twoFifths_ns :
    (NewRedisLimiter (2 / 5)).windowSizeNs = 2500000000 := by
  norm_num [NewRedisLimiter]; simp

/-- C5 counterexample: for rate 2/5 the stored window size is 2.5
seconds, and the call times 3 and 4 lie in the same window in the sense
of the claim (`⌊3/2.5⌋ = ⌊4/2.5⌋ = 1`), yet the computed record
identifiers differ ("ratelimit:1.2.3.4:1" vs "ratelimit:1.2.3.4:2"),
because the code divides whole seconds by the window size truncated to
whole seconds; the expiry argument is likewise 4 seconds, not
`2 * windowSize = 5` seconds. -/
theorem redis_window_key_counterexample :
    ⌊(3 : ℚ) / (NewRedisLimiter (2 / 5)).windowSecondsQ⌋
      = ⌊(4 : ℚ) / (NewRedisLimiter (2 / 5)).windowSecondsQ⌋
    ∧ (NewRedisLimiter (2 / 5)).key "1.2.3.4" 3
        ≠ (NewRedisLimiter (2 / 5)).key "1.2.3.4" 4
    ∧ ((NewRedisLimiter (2 / 5)).ttlArg : ℚ)
        ≠ 2 * (NewRedisLimiter (2 / 5)).windowSecondsQ := by
  have hwq : (NewRedisLimiter (2 / 5)).windowSecondsQ = 5 / 2 := by
    unfold RedisLimiter.windowSecondsQ
    rw [newRedis_twoFifths_ns]; norm_num
  refine ⟨?_, ?_, ?_⟩
  · rw [hwq]; norm_num
  · unfold RedisLimiter.key RedisLimiter.window RedisLimiter.windowSecondsI
    rw [newRedis_twoFifths_ns]
    decide
  · rw [hwq]
    unfold RedisLimiter.ttlArg
    rw [newRedis_twoFifths_ns]
    norm_num

/-- C5 amended: the backend record touched by an admission check has
identifier `"ratelimit:" ++ key ++ ":" ++ windowIndex` where
`windowIndex = t / (windowSizeNs / 10^9)` (integer division of whole
epoch seconds by the window size truncated to whole seconds); the
atomic script increments exactly that record and touches no other; its
expiry is set, to `2 * (windowSizeNs / 10^9)` seconds, exactly when the
increment created the record (the count became 1); and any two
admission checks for the same key whose truncated window indices agree
compute the same identifier. This coincides with the original claim
whenever the window size is a whole number of seconds. -/
theorem redis_allow_script_amended (rl : RedisLimiter) (ip : String) (t : ℕ)
    (s : RedisStore) :
    ((rl.AllowFull ip t s).2.counts (rl.key ip t) = s.counts (rl.key ip t) + 1)
    ∧ (∀ k, k ≠ rl.key ip t → (rl.AllowFull ip t s).2.counts k = s.counts k)
    ∧ (s.counts (rl.key ip t) = 0 →
        (rl.AllowFull ip t s).2.ttls (rl.key ip t)
          = some (rl.windowSizeNs / 10 ^ 9 * 2))
    ∧ (s.counts (rl.key ip t) ≠ 0 →
        ∀ k, (rl.AllowFull ip t s).2.ttls k = s.ttls k)
    ∧ (rl.key ip t
        = "ratelimit:" ++ ip ++ ":" ++ toString (t / (rl.windowSizeNs / 10 ^ 9)))
    ∧ (∀ t2, t / (rl.windowSizeNs / 10 ^ 9) = t2 / (rl.windowSizeNs / 10 ^ 9) →
        rl.key ip t = rl.key ip t2) := by
  refine ⟨?_, ?_, ?_, ?_, rfl, ?_⟩
  · unfold RedisLimiter.AllowFull luaRateScript
    dsimp only
    rw [if_pos rfl]
  · intro k hk
    unfold RedisLimiter.AllowFull luaRateScript
    dsimp only
    rw [if_neg hk]
  · intro h0
    unfold RedisLimiter.AllowFull luaRateScript
    dsimp only
    rw [h0]
    norm_num [RedisLimiter.ttlArg]
  · intro h0 k
    unfold RedisLimiter.AllowFull luaRateScript
    dsimp only
    rw [if_neg (by omega : ¬ s.counts (rl.key ip t) + 1 = 1)]
  · intro t2 h
    unfold RedisLimiter.key RedisLimiter.window RedisLimiter.windowSecondsI
    rw [h]

/-- Witness for C5 amended: a first admission check at rate 1/5 (window
5 s) and time 7 against an empty store sets the counter to 1 and the
expiry to 10 s, and times 7 and 9 (same window index 1) yield the same
record identifier. -/
theorem redis_allow_script_amended_witness :
    ((NewRedisLimiter (1 / 5)).AllowFull "1.2.3.4" 7
        ⟨fun _ => 0, fun _ => none⟩).2.counts
      ((NewRedisLimiter (1 / 5)).key "1.2.3.4" 7) = 1
    ∧ ((NewRedisLimiter (1 / 5)).AllowFull "1.2.3.4" 7
        ⟨fun _ => 0, fun _ => none⟩).2.ttls
      ((NewRedisLimiter (1 / 5)).key "1.2.3.4" 7) = some 10
    ∧ (NewRedisLimiter (1 / 5)).key "1.2.3.4" 7
        = (NewRedisLimiter (1 / 5)).key "1.2.3.4" 9 := by
  have h := redis_allow_script_amended (NewRedisLimiter (1 / 5)) "1.2.3.4" 7
    ⟨fun _ => 0, fun _ => none⟩
  have hns : (NewRedisLimiter (1 / 5)).windowSizeNs / 10 ^ 9 * 2 = 10 := by
    rw [newRedis_fifth_ns]; decide
  have hwin : (7 : ℕ) / ((NewRedisLimiter (1 / 5)).windowSizeNs / 10 ^ 9)
      = 9 / ((NewRedisLimiter (1 / 5)).windowSizeNs / 10 ^ 9) := by
    rw [newRedis_fifth_ns]; decide
  refine ⟨h.1, ?_, h.2.2.2.2.2 9 hwin⟩
  have h3 := h.2.2.1 rfl
  rw [hns] at h3
  exact h3

/-- C7 counterexample: with rate 1/1000, a registry holding an idle
exhausted bucket for key "B" (last refilled at time 0) and last cleanup
at time 0, the call `Allow("A")` at time 301 triggers the cleanup sweep
and REMOVES the bucket registered for "B" — so the registry entry for
"B" is not left unchanged — and this changes the admit decision of a
subsequent `Allow("B")`: rejected (0.301 tokens) without the "A" call,
admitted (fresh full bucket) after it. -/
theorem memoryLimiter_isolation_counterexample :
    ((mlTwoKeys.Allow "A" 301).2).buckets "B" ≠ mlTwoKeys.buckets "B"
    ∧ (mlTwoKeys.Allow "B" 301).1 = false
    ∧ ((mlTwoKeys.Allow "A" 301).2.Allow "B" 301).1 = true := by
  have h4 : ¬ (("B":String) = "A") := by decide
  have h4' : ¬ (("A":String) = "B") := by decide
  refine ⟨?_, ?_, ?_⟩
  · norm_num [mlTwoKeys, bucketBIdle, MemoryLimiter.Allow, MemoryLimiter.getBucket,
      MemoryLimiter.maybeCleanup, NewTokenBucket, TokenBucket.Allow,
      TokenBucket.refill, minF, maxF, h4, h4']
    exact fun hx => Option.noConfusion hx
  · norm_num [mlTwoKeys, bucketBIdle, MemoryLimiter.Allow, MemoryLimiter.getBucket,
      MemoryLimiter.maybeCleanup, NewTokenBucket, TokenBucket.Allow,
      TokenBucket.refill, minF, maxF, h4, h4']
  · norm_num [mlTwoKeys, bucketBIdle, MemoryLimiter.Allow, MemoryLimiter.getBucket,
      MemoryLimiter.maybeCleanup, NewTokenBucket, TokenBucket.Allow,
      TokenBucket.refill, minF, maxF, h4, h4']

/-- C7 amended: for distinct keys `b ≠ a`, `Allow(a)` never mutates the
bucket registered for `b`: the registry entry for `b` is left exactly
unchanged whenever the cleanup sweep does not fire (less than 5 minutes
since the last sweep) or `b`'s bucket is not idle past the 5-minute
threshold. (The sweep piggybacked on `Allow(a)` may remove — never
modify — an idle bucket of `b`, which is what the counterexample
exhibits.) -/
theorem memoryLimiter_isolation_amended (rl : MemoryLimiter) (a b : String)
    (hab : b ≠ a) (now : ℚ)
    (h : now - rl.lastCleanup < 300
      ∨ ∀ bk : TokenBucket, rl.buckets b = some bk →
          now - 300 ≤ bk.lastRefillTime) :
    ((rl.Allow a now).2).buckets b = rl.buckets b := by
  unfold MemoryLimiter.Allow MemoryLimiter.maybeCleanup
  dsimp only
  by_cases hc : now - rl.lastCleanup < 300
  · rw [if_pos hc]
    dsimp only
    rw [if_neg hab]
  · rw [if_neg hc]
    dsimp only
    rw [if_neg hab]
    rcases h with h | h
    · exact absurd h hc
    · cases hbk : rl.buckets b with
      | none => rfl
      | some bk =>
          show (if bk.lastRefillTime < now - 300 then none else some bk)
            = some bk
          rw [if_neg (not_lt.mpr (h bk hbk))]

/-- Witness for C7 amended: on a fresh limiter (no sweep due), an
`Allow("A")` call leaves the (empty) registry entry for "B"
unchanged. -/
theorem memoryLimiter_isolation_amended_witness :
    (((NewMemoryLimiter 5 0).Allow "A" 10).2).buckets "B" = none := by
  have h := memoryLimiter_isolation_amended (NewMemoryLimiter 5 0) "A" "B"
    (by decide) 10 (Or.inl (by norm_num [NewMemoryLimiter]))
  rw [h]
  rfl

/-- C8: `NewLimiter` lower-cases and trims the configured kind; when the
normalized kind is "memory" or the empty string it returns the in-memory
limiter with no error; when it is "redis" (and the backend ping
succeeds) it returns the constructed Redis limiter; and for every other
value it returns no limiter and the descriptive configuration error
"unknown rate limiter type: ...". -/
theorem newLimiter_dispatch (cfg : LimiterConfig) (pingOk : Bool) (now : ℚ) :
    (goToLower (goTrimSpace cfg.type) = "memory" ∨ goToLower (goTrimSpace cfg.type) = "" →
      NewLimiter cfg pingOk now
        = .ok (.mem (NewMemoryLimiter cfg.RequestsPerSecond now)))
    ∧ (goToLower (goTrimSpace cfg.type) = "redis" → pingOk = true →
      NewLimiter cfg pingOk now
        = .ok (.red (NewRedisLimiter cfg.RequestsPerSecond)))
    ∧ (goToLower (goTrimSpace cfg.type) ≠ "memory" → goToLower (goTrimSpace cfg.type) ≠ "" →
        goToLower (goTrimSpace cfg.type) ≠ "redis" →
      NewLimiter cfg pingOk now
        = .error ("unknown rate limiter type: " ++ cfg.type)) := by
  unfold NewLimiter NewRedisLimiterE
  refine ⟨?_, ?_, ?_⟩
  · intro h
    rw [if_pos h]
  · intro h hp
    subst hp
    have hne : ¬ (goToLower (goTrimSpace cfg.type) = "memory" ∨ goToLower (goTrimSpace cfg.type) = "") := by
      rintro (h1 | h1) <;> rw [h] at h1 <;> exact absurd h1 (by decide)
    rw [if_neg hne, if_pos h]
    rfl
  · intro h1 h2 h3
    rw [if_neg (by rintro (hx | hx) <;> [exact h1 hx; exact h2 hx]), if_neg h3]

/-- Witness for C8: the mixed-case padded kind " MEMORY " yields the
in-memory limiter, and the kind "bogus" yields the configuration
error. -/
theorem newLimiter_dispatch_witness :
    NewLimiter ⟨" MEMORY ", 10, "", "", 0⟩ true 0
      = .ok (.mem (NewMemoryLimiter 10 0))
    ∧ NewLimiter ⟨"bogus", 10, "", "", 0⟩ true 0
      = .error ("unknown rate limiter type: " ++ "bogus") := by
  constructor
  · exact (newLimiter_dispatch ⟨" MEMORY ", 10, "", "", 0⟩ true 0).1
      (Or.inl (by decide))
  · exact (newLimiter_dispatch ⟨"bogus", 10, "", "", 0⟩ true 0).2.2
      (by decide) (by decide) (by decide)

/-- C9: every `MemoryLimiter.Allow` call ends by running the cleanup
sweep on the bucket-updated state; the sweep leaves the state entirely
unchanged when less than 5 minutes have elapsed since the last sweep,
and otherwise sets the last-sweep timestamp to `now` and removes exactly
those buckets whose `lastRefillTime` is older than 5 minutes before
`now`, keeping all others. -/
theorem memoryLimiter_allow_cleanup (rl : MemoryLimiter) (ip : String)
    (now : ℚ) :
    ((rl.Allow ip now).2
        = ({ rl with buckets := fun k =>
              if k = ip then some ((rl.getBucket ip now).Allow now).2
              else rl.buckets k } : MemoryLimiter).maybeCleanup now)
    ∧ (∀ m : MemoryLimiter, now - m.lastCleanup < 300 →
        m.maybeCleanup now = m)
    ∧ (∀ m : MemoryLimiter, 300 ≤ now - m.lastCleanup →
        (m.maybeCleanup now).lastCleanup = now
        ∧ ∀ k, (m.maybeCleanup now).buckets k
            = match m.buckets k with
              | some b => if b.lastRefillTime < now - 300 then none else some b
              | none => none) := by
  refine ⟨rfl, ?_, ?_⟩
  · intro m h
    unfold MemoryLimiter.maybeCleanup
    rw [if_pos h]
  · intro m h
    unfold MemoryLimiter.maybeCleanup
    rw [if_neg (not_lt.mpr h)]
    exact ⟨rfl, fun k => rfl⟩

/-- Witness for C9: on a limiter last swept at time 0, the sweep at
time 10 is a no-op, and the sweep at time 300 updates the last-sweep
timestamp. -/
theorem memoryLimiter_allow_cleanup_witness :
    (NewMemoryLimiter 5 0).maybeCleanup 10 = NewMemoryLimiter 5 0
    ∧ ((NewMemoryLimiter 5 0).maybeCleanup 300).lastCleanup = 300 := by
  constructor
  · exact (memoryLimiter_allow_cleanup (NewMemoryLimiter 5 0) "A" 10).2.1
      (NewMemoryLimiter 5 0) (by norm_num [NewMemoryLimiter])
  · exact ((memoryLimiter_allow_cleanup (NewMemoryLimiter 5 0) "A" 300).2.2
      (NewMemoryLimiter 5 0) (by norm_num [NewMemoryLimiter])).1
